import Mathlib

/-
Shallow embedding of the harmoniq knowledge-graph retrieval engine
(src/backend-fastapi/app/graph/graph_builder.py and the graph-ranking part of
src/backend-fastapi/app/services/regulation_service.py).

Modelling conventions:
- Python floats are modelled as exact rationals (ℚ).
- Python dicts are modelled as insertion-ordered association lists with unique
  keys; updating an existing key rewrites the value in place (setA), which is
  exactly dict-assignment semantics.
- networkx.DiGraph holds at most one edge per ordered pair of nodes;
  DiGraph.add_edge on an existing pair updates that edge's attributes.
  We model the node set and the edge set as insertion-ordered association
  lists keyed by node id and by the ordered pair respectively.
- sklearn cosine_similarity values are encoded through the strictly monotone
  bijection x ↦ sign(x)·x², which maps cosine d/(‖a‖‖b‖) to the rational
  sign(d)·d²/(‖a‖²‖b‖²).  All comparisons the source performs on similarity
  values (argsort ordering and the >= threshold gate, with the threshold
  mapped through the same bijection) are preserved exactly, so the embedding
  is order- and threshold-equivalent to the real-number computation while
  staying inside ℚ.
- numpy argsort and Python sorted are modelled as stable sorts
  (List.insertionSort); Python sorted is specified stable, and for every
  concrete input used below the orders are uniquely determined.
-/

namespace Harmoniq

/-- Association-list lookup (Python dict access). -/
def lookupA {κ β : Type} [DecidableEq κ] (k : κ) : List (κ × β) → Option β
  | [] => none
  | (k2, v) :: rest => if k2 = k then some v else lookupA k rest

/-- Association-list update: rewrite the value if the key is present
(keeping its position, as a Python dict does), else append. -/
def setA {κ β : Type} [DecidableEq κ] (k : κ) (v : β) : List (κ × β) → List (κ × β)
  | [] => [(k, v)]
  | (k2, v2) :: rest => if k2 = k then (k, v) :: rest else (k2, v2) :: setA k v rest

/-- app/models/regulation.py RegulationClause (the Python field name
section is a Lean keyword, rendered here as sectionLabel). -/
structure RegulationClause where
  id : String
  text : String
  sectionLabel : String
  clause_number : String
  requirement_type : Option String
  severity : Option String
  embedding : Option (List ℚ)
deriving DecidableEq, Repr

/-- app/models/regulation.py RegulationTriplet. -/
structure RegulationTriplet where
  subject : String
  predicate : String
  object : String
  confidence : ℚ
  source : Option String
deriving DecidableEq, Repr

/-- Node attribute dict.  The builder stores either the six clause attributes
(add_clause_node) or just type="unknown" (add_triplet's auto-created
endpoints); absent keys are none. -/
structure NodeAttrs where
  type : Option String
  text : Option String
  sectionLabel : Option String
  clause_number : Option String
  requirement_type : Option String
  severity : Option String
deriving DecidableEq, Repr

/-- Edge attribute dict, always fully set by add_triplet. -/
structure EdgeAttrs where
  relation : String
  confidence : ℚ
  source : Option String
deriving DecidableEq, Repr

def emptyAttrs : NodeAttrs := ⟨none, none, none, none, none, none⟩

def unknownAttrs : NodeAttrs := ⟨some "unknown", none, none, none, none, none⟩

/-- networkx.DiGraph: insertion-ordered nodes keyed by id, insertion-ordered
edges keyed by the ordered pair (at most one edge per ordered pair). -/
structure DiGraph where
  nodes : List (String × NodeAttrs)
  edges : List ((String × String) × EdgeAttrs)
deriving DecidableEq, Repr

def DiGraph.empty : DiGraph := ⟨[], []⟩

def DiGraph.hasNode (g : DiGraph) (n : String) : Bool :=
  (lookupA n g.nodes).isSome

/-- DiGraph.add_node with a full attribute set: overwrite if present,
append if absent. -/
def DiGraph.add_node_full (g : DiGraph) (n : String) (a : NodeAttrs) : DiGraph :=
  { g with nodes := setA n a g.nodes }

/-- Append the node only if absent (used for auto-created endpoints;
the callers guard with has_node, matching graph_builder.add_triplet). -/
def DiGraph.ensureNode (g : DiGraph) (n : String) (a : NodeAttrs) : DiGraph :=
  if g.hasNode n then g else { g with nodes := g.nodes ++ [(n, a)] }

/-- DiGraph.add_edge: auto-create missing endpoints with an empty attribute
dict, then set (or overwrite) the single edge record for the ordered pair. -/
def DiGraph.add_edge (g : DiGraph) (u v : String) (a : EdgeAttrs) : DiGraph :=
  let g1 := (g.ensureNode u emptyAttrs).ensureNode v emptyAttrs
  { g1 with edges := setA (u, v) a g1.edges }

/-- dict(self.graph.nodes[node_id]) if present (get_node_data). -/
def DiGraph.get_node_data (g : DiGraph) (n : String) : Option NodeAttrs :=
  lookupA n g.nodes

/-- Total outgoing edge weight of a node, using the confidence attribute
(the weight PageRank propagates along). -/
def DiGraph.outWeight (g : DiGraph) (u : String) : ℚ :=
  ((g.edges.filter (fun e => e.1.1 = u)).map (fun e => e.2.confidence)).sum

/-- Structural well-formedness every builder-produced graph enjoys:
unique node ids, at most one edge record per ordered pair, and every edge
endpoint present among the nodes. -/
def DiGraph.WF (g : DiGraph) : Prop :=
  (g.nodes.map Prod.fst).Nodup ∧ (g.edges.map Prod.fst).Nodup ∧
    ∀ e ∈ g.edges, g.hasNode e.1.1 = true ∧ g.hasNode e.1.2 = true

instance (g : DiGraph) : Decidable g.WF := by
  unfold DiGraph.WF; infer_instance

/-- graph_builder.RegulationGraphBuilder state: the DiGraph plus the
node-id → embedding dict. -/
structure RegulationGraphBuilder where
  graph : DiGraph
  node_embeddings : List (String × List ℚ)
deriving DecidableEq, Repr

def RegulationGraphBuilder.empty : RegulationGraphBuilder := ⟨DiGraph.empty, []⟩

/-- RegulationGraphBuilder.add_clause_node: add the node with the six clause
attributes; store the embedding only when clause.embedding is truthy
(present and non-empty, Python if clause.embedding). -/
def RegulationGraphBuilder.add_clause_node (b : RegulationGraphBuilder)
    (c : RegulationClause) : RegulationGraphBuilder :=
  { graph := b.graph.add_node_full c.id
      ⟨some "clause", some c.text, some c.sectionLabel, some c.clause_number,
        c.requirement_type, c.severity⟩
    node_embeddings :=
      match c.embedding with
      | some e => if e.isEmpty then b.node_embeddings else setA c.id e b.node_embeddings
      | none => b.node_embeddings }

/-- RegulationGraphBuilder.add_triplet: auto-create missing endpoints as
type="unknown" nodes, then add_edge with relation/confidence/source. -/
def RegulationGraphBuilder.add_triplet (b : RegulationGraphBuilder)
    (t : RegulationTriplet) : RegulationGraphBuilder :=
  let g1 := b.graph.ensureNode t.subject unknownAttrs
  let g2 := g1.ensureNode t.object unknownAttrs
  { b with graph := g2.add_edge t.subject t.object ⟨t.predicate, t.confidence, t.source⟩ }

/-- RegulationGraphBuilder.add_nearby_chunk_edges: one NEARBY triplet
(confidence 1.0) from each clause to its immediate successor.  The source
loop adds, for each index i with i < len-1, the pair (clauses[i],
clauses[i+1]); zipping the list with its tail enumerates exactly those
pairs in the same order. -/
def RegulationGraphBuilder.add_nearby_chunk_edges (b : RegulationGraphBuilder)
    (clauses : List RegulationClause) : RegulationGraphBuilder :=
  (clauses.zip clauses.tail).foldl
    (fun bb p => bb.add_triplet ⟨p.1.id, "NEARBY", p.2.id, 1, none⟩) b

/-- Dot product of rational vectors (missing coordinates are 0). -/
def dotQ : List ℚ → List ℚ → ℚ
  | [], _ => 0
  | _, [] => 0
  | x :: xs, y :: ys => x * y + dotQ xs ys

/-- Squared Euclidean norm. -/
def ssq (v : List ℚ) : ℚ := dotQ v v

/-- Signed-square encoding of sklearn cosine similarity:
sign(d)·d²/(‖a‖²‖b‖²) where d is the dot product.  This is the image of the
real cosine d/(‖a‖‖b‖) under the strictly monotone bijection x ↦ sign(x)·x²,
so every order comparison between similarity values is preserved.
A zero vector gets similarity 0, as sklearn normalize leaves zero rows zero. -/
def simScore (a b : List ℚ) : ℚ :=
  let d := dotQ a b
  let den := ssq a * ssq b
  if den = 0 then 0 else if d < 0 then -(d * d / den) else d * d / den

/-- The same signed-square bijection applied to a plain cosine value
(used to carry the similarity threshold into the encoded scale). -/
def simOfCos (t : ℚ) : ℚ := if t < 0 then -(t * t) else t * t

/-- np.argsort: indices ordered by ascending value; stable for ties. -/
def argsortAsc (vals : List ℚ) : List ℕ :=
  (List.range vals.length).insertionSort (fun i j => vals.getD i 0 ≤ vals.getD j 0)

/-- The list of SIMILAR_TO triplets the add_semantic_similarity_edges loop
passes to add_triplet, in call order: for each clause index i, take
np.argsort(similarities)[::-1][1:max_edges+1] and keep the indices whose
similarity passes the threshold gate (sim_score >= similarity_threshold,
both sides in the signed-square encoding). -/
def simTriplets (clause_ids : List String) (embs : List (List ℚ))
    (similarity_threshold edge_weight : ℚ) (max_edges : ℕ) : List RegulationTriplet :=
  (List.range clause_ids.length).flatMap (fun i =>
    let similarities := embs.map (fun e => simScore (embs.getD i []) e)
    (((argsortAsc similarities).reverse.drop 1).take max_edges).filterMap (fun j =>
      if simOfCos similarity_threshold ≤ similarities.getD j 0 then
        some ⟨clause_ids.getD i "", "SIMILAR_TO", clause_ids.getD j "", edge_weight, none⟩
      else none))

/-- Python-source default similarity_threshold of
add_semantic_similarity_edges (0.75). -/
def defaultSimilarityThreshold : ℚ := 3 / 4

/-- Python-source default max_edges_per_node of
add_semantic_similarity_edges (5). -/
def defaultMaxEdgesPerNode : ℕ := 5

/-- Python-source default edge_weight of add_semantic_similarity_edges (0.1). -/
def defaultEdgeWeight : ℚ := 1 / 10

/-- The clause_ids/embeddings gathering loop at the top of
add_semantic_similarity_edges: the id and stored embedding of each clause
that has an entry in node_embeddings, in clause order. -/
def gatherPairs (b : RegulationGraphBuilder) (clauses : List RegulationClause) :
    List (String × List ℚ) :=
  clauses.filterMap
    (fun c => (lookupA c.id b.node_embeddings).map (fun e => (c.id, e)))

/-- RegulationGraphBuilder.add_semantic_similarity_edges: gather the ids and
embeddings of the clauses that have a stored embedding (in clause order);
if fewer than two, do nothing; otherwise add each gated SIMILAR_TO triplet
via add_triplet. -/
def RegulationGraphBuilder.add_semantic_similarity_edges (b : RegulationGraphBuilder)
    (clauses : List RegulationClause) (similarity_threshold : ℚ)
    (max_edges_per_node : ℕ) (edge_weight : ℚ) : RegulationGraphBuilder :=
  let pairs := gatherPairs b clauses
  if pairs.length < 2 then b
  else (simTriplets (pairs.map Prod.fst) (pairs.map Prod.snd)
          similarity_threshold edge_weight max_edges_per_node).foldl
        RegulationGraphBuilder.add_triplet b

/-- networkx error raised by pagerank on non-convergence.  The exception
object PowerIterationFailedConvergence carries only the iteration count in
its message; it has no attribute holding scores. -/
inductive NxErr
  | powerIterationFailedConvergence (num_iterations : ℕ)
deriving DecidableEq, Repr

/-- Python exception surfaced to the caller of personalized_pagerank. -/
inductive PyError
  | attributeError
deriving DecidableEq, Repr

/-- Score lookup with the 0 default (xlast.get / p.get semantics; every key
is present in the dicts the source builds). -/
def lookupScore (x : List (String × ℚ)) (n : String) : ℚ :=
  (lookupA n x).getD 0

/-- One power-iteration step of networkx pagerank over the weighted digraph:
x(v) ← α·Σ over edges u→v of xlast(u)·w(u,v)/outWeight(u)
      + α·(Σ over dangling u of xlast(u))·p(v) + (1-α)·p(v),
with edge weights read from the confidence attribute and dangling nodes
redistributing to the personalization vector. -/
def pprStep (g : DiGraph) (alpha : ℚ) (p x : List (String × ℚ)) :
    List (String × ℚ) :=
  let danglesum := alpha *
    ((g.nodes.filter (fun n => g.outWeight n.1 = 0)).map (fun n => lookupScore x n.1)).sum
  g.nodes.map (fun nv =>
    let v := nv.1
    let flow := ((g.edges.filter (fun e => e.1.2 = v)).map (fun e =>
      lookupScore x e.1.1 * (e.2.confidence / g.outWeight e.1.1))).sum
    (v, alpha * flow + danglesum * lookupScore p v + (1 - alpha) * lookupScore p v))

/-- L1 distance between two iterates over the same key set. -/
def l1diff (x y : List (String × ℚ)) : ℚ :=
  (x.map (fun nv => |nv.2 - lookupScore y nv.1|)).sum

/-- The for-loop of networkx pagerank: up to max_iter steps, returning the
first iterate whose L1 change is below N·tol, and raising
PowerIterationFailedConvergence(max_iter) when the budget runs out. -/
def pprLoop (g : DiGraph) (alpha : ℚ) (p : List (String × ℚ)) (tol : ℚ)
    (max_iter : ℕ) : ℕ → List (String × ℚ) → Except NxErr (List (String × ℚ))
  | 0, _ => .error (.powerIterationFailedConvergence max_iter)
  | k + 1, x =>
    let x2 := pprStep g alpha p x
    if l1diff x2 x < (g.nodes.length : ℚ) * tol then .ok x2
    else pprLoop g alpha p tol max_iter k x2

/-- nx.pagerank with an explicit personalization dict: empty graph returns
the empty dict; otherwise start from the uniform vector, normalize the
personalization by its sum, and run the power iteration. -/
def nx_pagerank (g : DiGraph) (alpha : ℚ) (personalization : List (String × ℚ))
    (max_iter : ℕ) (tol : ℚ) : Except NxErr (List (String × ℚ)) :=
  if g.nodes.isEmpty then .ok []
  else
    let psum := (personalization.map Prod.snd).sum
    let p := personalization.map (fun nv => (nv.1, nv.2 / psum))
    let x0 := g.nodes.map (fun n => (n.1, 1 / (g.nodes.length : ℚ)))
    pprLoop g alpha p tol max_iter max_iter x0

/-- RegulationGraphBuilder.personalized_pagerank.  Guard clauses in source
order: empty seed list → all-zero scores; empty graph → empty dict;
no seed present in the graph → uniform 1/N scores; otherwise run
nx.pagerank with the personalization uniform over the valid seeds.
On PowerIterationFailedConvergence the source executes return e.pagerank,
but the networkx exception has no pagerank attribute, so that handler
itself raises AttributeError, which propagates to the caller (the generic
except-Exception fallback belongs to the same try and does not catch it). -/
def RegulationGraphBuilder.personalized_pagerank (b : RegulationGraphBuilder)
    (seed_nodes : List String) (alpha : ℚ) (max_iter : ℕ) :
    Except PyError (List (String × ℚ)) :=
  if seed_nodes.isEmpty then
    .ok (b.graph.nodes.map (fun n => (n.1, 0)))
  else if b.graph.nodes.length = 0 then
    .ok []
  else
    let valid_seeds := seed_nodes.filter (fun n => b.graph.hasNode n)
    if valid_seeds.isEmpty then
      .ok (b.graph.nodes.map (fun n => (n.1, 1 / (b.graph.nodes.length : ℚ))))
    else
      let personalization := b.graph.nodes.map (fun n =>
        (n.1, if valid_seeds.contains n.1 then 1 / (valid_seeds.length : ℚ) else 0))
      match nx_pagerank b.graph alpha personalization max_iter (1 / 1000000) with
      | .ok scores => .ok scores
      | .error (.powerIterationFailedConvergence _) => .error .attributeError

/-- The asserted-triplet loop of build_knowledge_graph: each extracted
triplet is added with its confidence field overwritten to 1.0 first
(triplet.confidence = 1.0, then add_triplet). -/
def addAssertedTriplets (b : RegulationGraphBuilder)
    (triplets : List RegulationTriplet) : RegulationGraphBuilder :=
  triplets.foldl (fun bb t => bb.add_triplet { t with confidence := 1 }) b

/-- regulation_service.RegulationService.build_knowledge_graph: add the
clause nodes, add every extracted triplet with its confidence overwritten
to 1.0 (triplet.confidence = 1.0 before add_triplet), then add the sparse
similarity edges with threshold 0.80, at most 2 per node, weight 0.1. -/
def build_knowledge_graph (b : RegulationGraphBuilder)
    (clauses : List RegulationClause) (triplets : List RegulationTriplet) :
    RegulationGraphBuilder :=
  let b1 := clauses.foldl RegulationGraphBuilder.add_clause_node b
  let b2 := addAssertedTriplets b1 triplets
  b2.add_semantic_similarity_edges clauses (4 / 5) 2 (1 / 10)

/-- One entry of the list retrieve_with_hipporag returns.  text and section
fall back to "" via dict.get defaults; a clause node always carries the
severity key, whose (possibly None) value is emitted as stored. -/
structure RetrievalResult where
  clause_id : String
  text : String
  ppr_score : ℚ
  sectionLabel : String
  severity : Option String
deriving DecidableEq, Repr

/-- Step 3 of retrieve_with_hipporag: sorted(ppr_scores.items(),
key=score, reverse=True).  Python sorted is stable and reverse=True keeps
equal-key items in their original (dict-insertion) order, which is exactly
a stable sort under the flipped comparison. -/
def rankNodes (ppr_scores : List (String × ℚ)) : List (String × ℚ) :=
  ppr_scores.insertionSort (fun x y => y.2 ≤ x.2)

/-- Step 4 of retrieve_with_hipporag: slice the ranked list to the first
top_k entries, then keep those whose node data exists and has
type == "clause", emitting the result record for each. -/
def retrieveRank (b : RegulationGraphBuilder)
    (ppr_scores : List (String × ℚ)) (top_k : ℕ) : List RetrievalResult :=
  ((rankNodes ppr_scores).take top_k).filterMap (fun nv =>
    match b.graph.get_node_data nv.1 with
    | some a =>
        if a.type = some "clause" then
          some ⟨nv.1, a.text.getD "", nv.2, a.sectionLabel.getD "", a.severity⟩
        else none
    | none => none)

/-- One serialized link of nx.node_link_data: the dict built by splatting
the edge attributes first and then assigning the keys source := u and
target := v.  Because the endpoint keys are written last, the edge
attribute named source is clobbered by the source node id, so only the
relation and the confidence of the original attributes survive in the
document. -/
structure LinkRec where
  source : String
  target : String
  relation : String
  confidence : ℚ
deriving DecidableEq, Repr

/-- nx.node_link_data output: the node list with attributes and the link
records, in stored order. -/
structure GraphSnapshot where
  nodes : List (String × NodeAttrs)
  links : List LinkRec
deriving DecidableEq, Repr

/-- What RegulationGraphBuilder.save writes: the node-link JSON document and
the companion npz container mapping node id → embedding. -/
structure SavedGraph where
  graph_data : GraphSnapshot
  embeddings : List (String × List ℚ)
deriving DecidableEq, Repr

/-- RegulationGraphBuilder.save: node_link_data of the graph plus
np.savez(**node_embeddings).  Each edge becomes the link record described
at LinkRec (its source attribute is overwritten by the source node id). -/
def RegulationGraphBuilder.save (b : RegulationGraphBuilder) : SavedGraph :=
  ⟨⟨b.graph.nodes,
    b.graph.edges.map (fun e => ⟨e.1.1, e.1.2, e.2.relation, e.2.confidence⟩)⟩,
   b.node_embeddings⟩

/-- nx.node_link_graph: rebuild the DiGraph by inserting every node with its
attributes and then every edge; the source and target keys of a link are
consumed as the endpoints and excluded from the rebuilt edge attributes,
so a reloaded edge carries no source attribute (source := none). -/
def node_link_graph (d : GraphSnapshot) : DiGraph :=
  let g1 := d.nodes.foldl (fun g p => g.add_node_full p.1 p.2) DiGraph.empty
  d.links.foldl
    (fun g e => g.add_edge e.source e.target ⟨e.relation, e.confidence, none⟩) g1

/-- RegulationGraphBuilder.load: replace the graph with the deserialized
topology; replace node_embeddings only when the companion embeddings file
exists (embedding_file.exists() is the Boolean argument), otherwise leave
the previously held embeddings untouched. -/
def RegulationGraphBuilder.load (b : RegulationGraphBuilder) (data : SavedGraph)
    (embedding_file_exists : Bool) : RegulationGraphBuilder :=
  { graph := node_link_graph data.graph_data
    node_embeddings :=
      if embedding_file_exists then data.embeddings else b.node_embeddings }

/-- The node filter of retrieve_with_hipporag step 4: the node exists and
its stored type attribute equals "clause". -/
def isClauseNode (b : RegulationGraphBuilder) (n : String) : Bool :=
  match b.graph.get_node_data n with
  | some a => a.type = some "clause"
  | none => false

/- Concrete instances used to settle the claims on explicit inputs. -/

def tripR1 : RegulationTriplet := ⟨"A", "R1", "B", 1, none⟩

def tripR2 : RegulationTriplet := ⟨"A", "R2", "B", 1, none⟩

/-- Builder after one asserted edge A→B. -/
def exDupOnce : RegulationGraphBuilder :=
  RegulationGraphBuilder.empty.add_triplet tripR1

/-- Builder after a second edge for the same ordered pair A→B. -/
def exDupTwice : RegulationGraphBuilder :=
  exDupOnce.add_triplet tripR2

def clauseA : RegulationClause := ⟨"A", "ta", "s1", "1", none, none, some [1, 0]⟩

def clauseB : RegulationClause := ⟨"B", "tb", "s2", "2", none, none, some [4, 3]⟩

/-- An extracted relationship triplet whose upstream confidence is 0.9. -/
def tripC5 : RegulationTriplet := ⟨"A", "REQUIRES", "B", 9 / 10, none⟩

/-- build_knowledge_graph on two clauses whose embeddings have cosine
similarity exactly 0.8 and one extracted triplet A→B. -/
def exBuild : RegulationGraphBuilder :=
  build_knowledge_graph RegulationGraphBuilder.empty [clauseA, clauseB] [tripC5]

def clauseB8 : RegulationClause := ⟨"B", "tb", "s2", "2", none, none, some [55, 48]⟩

def exDefaultBase : RegulationGraphBuilder :=
  [clauseA, clauseB8].foldl RegulationGraphBuilder.add_clause_node
    RegulationGraphBuilder.empty

/-- add_semantic_similarity_edges called with the source-code default
parameters on two clauses whose cosine similarity is 55/73 ≈ 0.753. -/
def exDefaultCall : RegulationGraphBuilder :=
  exDefaultBase.add_semantic_similarity_edges [clauseA, clauseB8]
    defaultSimilarityThreshold defaultMaxEdgesPerNode defaultEdgeWeight

def clauseD1 : RegulationClause := ⟨"c1", "t1", "s", "1", none, none, some [1, 0]⟩

def clauseD2 : RegulationClause := ⟨"c2", "t2", "s", "2", none, none, some [2, 0]⟩

def exSelfLoopBase : RegulationGraphBuilder :=
  [clauseD1, clauseD2].foldl RegulationGraphBuilder.add_clause_node
    RegulationGraphBuilder.empty

/-- add_semantic_similarity_edges (with the build_knowledge_graph call-site
parameters) on two distinct clauses with parallel embeddings [1,0], [2,0]:
every pairwise cosine similarity is 1.0. -/
def exSelfLoop : RegulationGraphBuilder :=
  exSelfLoopBase.add_semantic_similarity_edges [clauseD1, clauseD2]
    (4 / 5) 2 (1 / 10)

def clauseAttrs1 : NodeAttrs :=
  ⟨some "clause", some "t1", some "s", some "1", none, none⟩

def clauseAttrs2 : NodeAttrs :=
  ⟨some "clause", some "t2", some "s", some "2", none, none⟩

/-- A graph with an unknown placeholder node and two clause nodes, for the
ranking-assembler claims. -/
def exRankBuilder : RegulationGraphBuilder :=
  ⟨⟨[("u", unknownAttrs), ("c1", clauseAttrs1), ("c2", clauseAttrs2)], []⟩, []⟩

/-- A score map in which the unknown node outranks both clause nodes. -/
def exRankScores : List (String × ℚ) := [("u", 3 / 4), ("c1", 1 / 8), ("c2", 1 / 8)]

def clauseAttrsA : NodeAttrs :=
  ⟨some "clause", some "ta", some "s", some "1", none, none⟩

def clauseAttrsB : NodeAttrs :=
  ⟨some "clause", some "tb", some "s", some "2", none, none⟩

/-- Two clause nodes for the tie-order claim. -/
def exTieBuilder : RegulationGraphBuilder :=
  ⟨⟨[("a", clauseAttrsA), ("b", clauseAttrsB)], []⟩, []⟩

/-- A score map with an exact tie, listed with the larger id first. -/
def exTieScores : List (String × ℚ) := [("b", 1), ("a", 1)]

/-- A two-node one-edge builder used for the PageRank claims. -/
def exPprBuilder : RegulationGraphBuilder :=
  RegulationGraphBuilder.empty.add_triplet ⟨"a", "R", "b", 1, none⟩

/-- A one-clause builder (no embedding) used for the uniform-fallback
witness. -/
def exOneNode : RegulationGraphBuilder :=
  RegulationGraphBuilder.empty.add_clause_node ⟨"a", "ta", "s", "1", none, none, none⟩

/-- A builder with integer-valued attributes for the round-trip witness. -/
def exSaveBuilder : RegulationGraphBuilder :=
  ((RegulationGraphBuilder.empty.add_clause_node
      ⟨"A", "ta", "s1", "1", some "mandatory", some "high", some [1, 0]⟩).add_triplet
    ⟨"A", "REQUIRES", "B", 1, some "FDA"⟩).add_triplet ⟨"B", "COVERS", "A", 2, none⟩

/-- A builder holding unrelated embeddings, the receiver of load calls. -/
def exStaleBuilder : RegulationGraphBuilder :=
  ⟨DiGraph.empty, [("old", [7, 7])]⟩

/- ------------------------------------------------------------------ -/
/- Helper lemmas on the association-list primitives.                  -/
/- ------------------------------------------------------------------ -/

theorem lookupA_setA {κ β : Type} [DecidableEq κ] (k k2 : κ) (v : β)
    (l : List (κ × β)) :
    lookupA k (setA k2 v l) = if k2 = k then some v else lookupA k l := by
  induction l with
  | nil => simp [setA, lookupA]
  | cons p t ih =>
    obtain ⟨k3, v3⟩ := p
    by_cases h1 : k3 = k2
    · subst h1
      by_cases h2 : k3 = k
      · subst h2; simp [setA, lookupA]
      · simp [setA, lookupA, h2]
    · by_cases h2 : k3 = k
      · subst h2
        have h3 : ¬ k2 = k3 := fun h => h1 h.symm
        simp [setA, lookupA, h1, h3]
      · simp [setA, lookupA, h1, h2, ih]

theorem lookupA_append_left_none {κ β : Type} [DecidableEq κ] (k : κ)
    (l1 l2 : List (κ × β)) (h : lookupA k l1 = none) :
    lookupA k (l1 ++ l2) = lookupA k l2 := by
  induction l1 with
  | nil => rfl
  | cons p t ih =>
    obtain ⟨k3, v3⟩ := p
    by_cases h2 : k3 = k
    · simp [lookupA, h2] at h
    · simp only [lookupA, h2, if_false, List.cons_append] at h ⊢
      exact ih h

theorem setA_append_of_none {κ β : Type} [DecidableEq κ] (k : κ) (v : β)
    (l : List (κ × β)) (h : lookupA k l = none) :
    setA k v l = l ++ [(k, v)] := by
  induction l with
  | nil => simp [setA]
  | cons p t ih =>
    obtain ⟨k3, v3⟩ := p
    by_cases h2 : k3 = k
    · simp [lookupA, h2] at h
    · simp only [lookupA, h2, if_false] at h
      simp [setA, h2, ih h]

theorem setA_length_of_some {κ β : Type} [DecidableEq κ] (k : κ) (v a : β)
    (l : List (κ × β)) (h : lookupA k l = some a) :
    (setA k v l).length = l.length := by
  induction l with
  | nil => simp [lookupA] at h
  | cons p t ih =>
    obtain ⟨k3, v3⟩ := p
    by_cases h2 : k3 = k
    · simp [setA, h2]
    · simp only [lookupA, h2, if_false] at h
      simp [setA, h2, ih h]

/-- Replacing the edge attributes of an existing ordered pair with the same
confidence value leaves the filtered confidence sum over any source node
unchanged. -/
theorem sum_conf_setA_eq (u v r : String) (c : ℚ) (s : Option String)
    (l : List ((String × String) × EdgeAttrs)) (a : EdgeAttrs)
    (h : lookupA (u, v) l = some a) (hc : a.confidence = c) :
    (((setA (u, v) (⟨r, c, s⟩ : EdgeAttrs) l).filter (fun e => e.1.1 = u)).map
        (fun e => e.2.confidence)).sum
      = ((l.filter (fun e => e.1.1 = u)).map (fun e => e.2.confidence)).sum := by
  induction l with
  | nil => simp [lookupA] at h
  | cons p t ih =>
    obtain ⟨k3, v3⟩ := p
    by_cases h2 : k3 = (u, v)
    · subst h2
      simp only [lookupA, if_pos] at h
      injection h with h
      subst h
      simp [setA, List.filter_cons, hc]
    · simp only [lookupA, h2, if_false] at h
      simp only [setA, h2, if_false, List.filter_cons]
      split <;> simp [ih h]

theorem DiGraph.ensureNode_edges (g : DiGraph) (n : String) (a : NodeAttrs) :
    (g.ensureNode n a).edges = g.edges := by
  unfold DiGraph.ensureNode
  split <;> rfl

theorem DiGraph.add_edge_edges (g : DiGraph) (u v : String) (a : EdgeAttrs) :
    (g.add_edge u v a).edges = setA (u, v) a g.edges := by
  unfold DiGraph.add_edge
  simp [DiGraph.ensureNode_edges]

/-- The edge list an add_triplet call leaves behind: the single record for
the triplet's ordered pair is set (or overwritten). -/
theorem add_triplet_edges (b : RegulationGraphBuilder) (t : RegulationTriplet) :
    (b.add_triplet t).graph.edges
      = setA (t.subject, t.object) ⟨t.predicate, t.confidence, t.source⟩
          b.graph.edges := by
  unfold RegulationGraphBuilder.add_triplet
  rw [DiGraph.add_edge_edges, DiGraph.ensureNode_edges, DiGraph.ensureNode_edges]

/- ------------------------------------------------------------------ -/
/- Claim theorems.                                                    -/
/- ------------------------------------------------------------------ -/

/-- C10: when the companion embeddings file does not exist, load leaves the
builder's node-embedding map exactly as it was before the call. -/
theorem load_without_embeddings_keeps_old_map
    (b : RegulationGraphBuilder) (data : SavedGraph) :
    (b.load data false).node_embeddings = b.node_embeddings := by
  simp [RegulationGraphBuilder.load]

/-- C7 (code bug): when the power iteration exhausts max_iter (here
max_iter = 0 on a two-node graph with a valid seed), personalized_pagerank
does not return the best partial iterate: the except-handler evaluates
e.pagerank on a networkx PowerIterationFailedConvergence exception, which
has no pagerank attribute, so the call raises AttributeError. -/
theorem ppr_nonconvergence_raises_attribute_error :
    exPprBuilder.personalized_pagerank ["a"] (17 / 20) 0
        = .error PyError.attributeError
      ∧ exPprBuilder.graph.hasNode "a" = true
      ∧ exPprBuilder.graph.nodes ≠ [] := by
  refine ⟨?_, by decide, by decide⟩
  rfl

/-- C1 (counterexample): two add_triplet calls for the ordered pair (A,B)
with different relations leave a single merged edge carrying the second
relation, and the total outgoing weight of A is unchanged by the duplicate
addition rather than increased by the added edge weight. -/
theorem duplicate_edge_is_merged_not_preserved :
    exDupTwice.graph.edges.length = 1
      ∧ lookupA ("A", "B") exDupTwice.graph.edges
          = some ⟨"R2", 1, none⟩
      ∧ exDupTwice.graph.outWeight "A" = exDupOnce.graph.outWeight "A" := by
  refine ⟨by decide, by decide, ?_⟩
  rfl

/-- C1 (amended): the DiGraph keeps at most one edge per ordered pair, so a
second add_triplet for an existing pair overwrites that edge's relation,
confidence and source in place: the edge count is unchanged, the stored
attributes are the new triplet's, and when the new confidence equals the
old one the total outgoing weight of the source node is unchanged. -/
theorem add_triplet_duplicate_pair_overwrites
    (b : RegulationGraphBuilder) (t : RegulationTriplet) (a : EdgeAttrs)
    (h : lookupA (t.subject, t.object) b.graph.edges = some a) :
    (b.add_triplet t).graph.edges.length = b.graph.edges.length
      ∧ lookupA (t.subject, t.object) (b.add_triplet t).graph.edges
          = some ⟨t.predicate, t.confidence, t.source⟩
      ∧ (a.confidence = t.confidence →
          (b.add_triplet t).graph.outWeight t.subject
            = b.graph.outWeight t.subject) := by
  have hedges := add_triplet_edges b t
  refine ⟨?_, ?_, ?_⟩
  · rw [hedges]
    exact setA_length_of_some _ _ a _ h
  · rw [hedges, lookupA_setA]
    simp
  · intro hc
    unfold DiGraph.outWeight
    rw [hedges]
    exact sum_conf_setA_eq _ _ _ _ _ _ a h hc

/-- C6: on a non-empty graph with a non-empty seed list none of whose ids
is a node, personalized_pagerank returns (without error) the uniform
distribution assigning every node 1/|nodes|, and those scores sum to 1. -/
theorem ppr_no_valid_seeds_uniform (b : RegulationGraphBuilder)
    (seeds : List String) (alpha : ℚ) (max_iter : ℕ)
    (h1 : seeds ≠ []) (h2 : b.graph.nodes ≠ [])
    (h3 : ∀ s ∈ seeds, b.graph.hasNode s = false) :
    b.personalized_pagerank seeds alpha max_iter
        = .ok (b.graph.nodes.map
            (fun n => (n.1, 1 / (b.graph.nodes.length : ℚ))))
      ∧ ((b.graph.nodes.map
            (fun n => (n.1, 1 / (b.graph.nodes.length : ℚ)))).map Prod.snd).sum
          = 1 := by
  have e2 : ¬ (b.graph.nodes.length = 0) := by
    simpa [List.length_eq_zero] using h2
  constructor
  · unfold RegulationGraphBuilder.personalized_pagerank
    have e1 : seeds.isEmpty = false := by
      cases seeds with
      | nil => exact absurd rfl h1
      | cons a t => rfl
    have e3 : seeds.filter (fun n => b.graph.hasNode n) = [] := by
      apply List.filter_eq_nil_iff.mpr
      intro a ha
      simp [h3 a ha]
    simp [e1, e2, e3]
  · have hmap : (b.graph.nodes.map
        (fun n => (n.1, 1 / (b.graph.nodes.length : ℚ)))).map Prod.snd
        = List.replicate b.graph.nodes.length (1 / (b.graph.nodes.length : ℚ)) := by
      rw [List.map_map]
      have : (Prod.snd ∘ fun n : String × NodeAttrs =>
          (n.1, 1 / (b.graph.nodes.length : ℚ)))
          = fun _ => 1 / (b.graph.nodes.length : ℚ) := rfl
      rw [this, List.map_const']
    rw [hmap, List.sum_replicate, nsmul_eq_mul]
    have hn : (b.graph.nodes.length : ℚ) ≠ 0 := Nat.cast_ne_zero.mpr e2
    exact mul_one_div_cancel hn

/-- C6 (witness): a one-node builder and the absent seed id "x". -/
theorem ppr_no_valid_seeds_uniform_witness :
    exOneNode.personalized_pagerank ["x"] (17 / 20) 100
        = .ok (exOneNode.graph.nodes.map
            (fun n => (n.1, 1 / (exOneNode.graph.nodes.length : ℚ))))
      ∧ ((exOneNode.graph.nodes.map
            (fun n => (n.1, 1 / (exOneNode.graph.nodes.length : ℚ)))).map
          Prod.snd).sum = 1 :=
  ppr_no_valid_seeds_uniform exOneNode ["x"] (17 / 20) 100
    (by decide) (by decide) (by decide)

/-- If an ordered pair's edge currently has confidence 1, it still has
confidence 1 after any run of the asserted-triplet loop (every write the
loop performs stores confidence 1). -/
theorem conf_one_preserved (pr : String × String) (b : RegulationGraphBuilder)
    (ts : List RegulationTriplet)
    (h : (lookupA pr (addAssertedTriplets b []).graph.edges).map
        EdgeAttrs.confidence = some 1) :
    (lookupA pr (addAssertedTriplets b ts).graph.edges).map
        EdgeAttrs.confidence = some 1 := by
  induction ts generalizing b with
  | nil => exact h
  | cons t0 rest ih =>
    have step : addAssertedTriplets b (t0 :: rest)
        = addAssertedTriplets (b.add_triplet { t0 with confidence := 1 }) rest := by
      simp [addAssertedTriplets]
    rw [step]
    apply ih
    have hb : (lookupA pr b.graph.edges).map EdgeAttrs.confidence = some 1 := h
    show (lookupA pr (b.add_triplet { t0 with confidence := 1 }).graph.edges).map
        EdgeAttrs.confidence = some 1
    rw [add_triplet_edges, lookupA_setA]
    split
    · rfl
    · exact hb

/-- C5 (amended): every extracted relationship triplet is stored by the
build loop with edge confidence exactly 1.0, regardless of the confidence
the upstream extractor attached; immediately after the asserted-triplet
loop the edge for each triplet's ordered pair carries weight 1.0.  (A later
SIMILAR_TO edge for the same ordered pair can still overwrite that weight,
because the graph keeps a single edge per pair.) -/
theorem asserted_triplets_weight_one (b : RegulationGraphBuilder)
    (ts : List RegulationTriplet) (t : RegulationTriplet) (h : t ∈ ts) :
    (lookupA (t.subject, t.object) (addAssertedTriplets b ts).graph.edges).map
        EdgeAttrs.confidence = some 1 := by
  induction ts generalizing b with
  | nil => cases h
  | cons t0 rest ih =>
    have step : addAssertedTriplets b (t0 :: rest)
        = addAssertedTriplets (b.add_triplet { t0 with confidence := 1 }) rest := by
      simp [addAssertedTriplets]
    rcases List.mem_cons.mp h with heq | hmem
    · subst heq
      rw [step]
      apply conf_one_preserved
      show (lookupA (t.subject, t.object)
          (b.add_triplet { t with confidence := 1 }).graph.edges).map
        EdgeAttrs.confidence = some 1
      rw [add_triplet_edges, lookupA_setA]
      simp
    · rw [step]
      exact ih _ hmem

/-- C5 (witness for the amended theorem): the loop stores weight 1.0 for a
triplet whose extractor confidence was 0.9. -/
theorem asserted_triplets_weight_one_witness :
    (lookupA (tripC5.subject, tripC5.object)
        (addAssertedTriplets RegulationGraphBuilder.empty [tripC5]).graph.edges).map
      EdgeAttrs.confidence = some 1 :=
  asserted_triplets_weight_one RegulationGraphBuilder.empty [tripC5] tripC5
    (List.mem_singleton.mpr rfl)

/-- C5 (counterexample): in build_knowledge_graph on clauses A,B (cosine
similarity exactly 0.8) with the extracted triplet A→B (confidence 0.9),
the edge stored for the triplet's ordered pair ends up with weight 0.1,
not 1.0: the later SIMILAR_TO edge for the same pair overwrites the
asserted edge, so the weight used for PageRank propagation is not 1.0. -/
theorem asserted_weight_overwritten_by_similarity :
    lookupA ("A", "B") exBuild.graph.edges
        = some ⟨"SIMILAR_TO", 1 / 10, none⟩
      ∧ ¬ ((1 : ℚ) / 10 = 1) := by
  have s11 : simScore [1, 0] [1, 0] = 1 := by norm_num [simScore, ssq, dotQ]
  have s12 : simScore [1, 0] [4, 3] = 16 / 25 := by norm_num [simScore, ssq, dotQ]
  have s21 : simScore [4, 3] [1, 0] = 16 / 25 := by norm_num [simScore, ssq, dotQ]
  have s22 : simScore [4, 3] [4, 3] = 1 := by norm_num [simScore, ssq, dotQ]
  have tthr : simOfCos (4 / 5) = 16 / 25 := by norm_num [simOfCos]
  have c1 : ((1 : ℚ) ≤ 16 / 25) = False := by norm_num
  have c2 : ((16 : ℚ) / 25 ≤ 1) = True := by norm_num
  have c3 : ((16 : ℚ) / 25 ≤ 16 / 25) = True := by norm_num
  have h1 : [clauseA, clauseB].foldl RegulationGraphBuilder.add_clause_node
      RegulationGraphBuilder.empty
      = ⟨⟨[("A", ⟨some "clause", some "ta", some "s1", some "1", none, none⟩),
           ("B", ⟨some "clause", some "tb", some "s2", some "2", none, none⟩)], []⟩,
         [("A", [1, 0]), ("B", [4, 3])]⟩ := by
    simp [clauseA, clauseB, RegulationGraphBuilder.add_clause_node,
      DiGraph.add_node_full, setA, RegulationGraphBuilder.empty, DiGraph.empty]
  have h2 : addAssertedTriplets
      (⟨⟨[("A", ⟨some "clause", some "ta", some "s1", some "1", none, none⟩),
          ("B", ⟨some "clause", some "tb", some "s2", some "2", none, none⟩)], []⟩,
        [("A", [1, 0]), ("B", [4, 3])]⟩ : RegulationGraphBuilder) [tripC5]
      = ⟨⟨[("A", ⟨some "clause", some "ta", some "s1", some "1", none, none⟩),
           ("B", ⟨some "clause", some "tb", some "s2", some "2", none, none⟩)],
          [(("A", "B"), ⟨"REQUIRES", 1, none⟩)]⟩,
         [("A", [1, 0]), ("B", [4, 3])]⟩ := by
    simp [addAssertedTriplets, tripC5, RegulationGraphBuilder.add_triplet,
      DiGraph.add_edge, DiGraph.ensureNode, DiGraph.hasNode, lookupA, setA]
  have h3 : gatherPairs
      (⟨⟨[("A", ⟨some "clause", some "ta", some "s1", some "1", none, none⟩),
          ("B", ⟨some "clause", some "tb", some "s2", some "2", none, none⟩)],
         [(("A", "B"), ⟨"REQUIRES", 1, none⟩)]⟩,
        [("A", [1, 0]), ("B", [4, 3])]⟩ : RegulationGraphBuilder)
      [clauseA, clauseB] = [("A", [1, 0]), ("B", [4, 3])] := by
    simp [gatherPairs, clauseA, clauseB, lookupA]
  have h4 : simTriplets ["A", "B"] [[1, 0], [4, 3]] (4 / 5) (1 / 10) 2
      = [⟨"A", "SIMILAR_TO", "B", 1 / 10, none⟩,
         ⟨"B", "SIMILAR_TO", "A", 1 / 10, none⟩] := by
    simp [simTriplets, argsortAsc, s11, s12, s21, s22, tthr, c1, c2, c3,
      List.insertionSort, List.orderedInsert, List.range_succ,
      List.getD_cons_zero, List.getD_cons_succ, List.flatMap_cons,
      List.filterMap_cons, List.take_succ_cons, List.drop_succ_cons]
  constructor
  · show lookupA ("A", "B")
      (build_knowledge_graph RegulationGraphBuilder.empty [clauseA, clauseB]
        [tripC5]).graph.edges = some ⟨"SIMILAR_TO", 1 / 10, none⟩
    simp only [build_knowledge_graph]
    rw [h1, h2]
    simp only [RegulationGraphBuilder.add_semantic_similarity_edges]
    rw [h3]
    have hlen : ¬ ([("A", ([1, 0] : List ℚ)), ("B", [4, 3])].length < 2) := by
      norm_num
    rw [if_neg hlen]
    simp only [List.map_cons, List.map_nil]
    rw [h4]
    simp [RegulationGraphBuilder.add_triplet, DiGraph.add_edge,
      DiGraph.ensureNode, DiGraph.hasNode, lookupA, setA]
  · norm_num

/-- C9 (code bug): on two clauses with distinct ids c1 ≠ c2 but parallel
embeddings [1,0] and [2,0] (every pairwise cosine similarity is 1.0),
add_semantic_similarity_edges creates the self-loop edge c1→c1: dropping
the first entry of the descending argsort fails to exclude self when the
similarities tie, contradicting the code's own "(excluding self)" comment
and the spec's no-self-loop guarantee. -/
theorem similarity_edges_create_self_loop :
    lookupA ("c1", "c1") exSelfLoop.graph.edges
        = some ⟨"SIMILAR_TO", 1 / 10, none⟩
      ∧ clauseD1.id ≠ clauseD2.id := by
  have s11 : simScore [1, 0] [1, 0] = 1 := by norm_num [simScore, ssq, dotQ]
  have s12 : simScore [1, 0] [2, 0] = 1 := by norm_num [simScore, ssq, dotQ]
  have s21 : simScore [2, 0] [1, 0] = 1 := by norm_num [simScore, ssq, dotQ]
  have s22 : simScore [2, 0] [2, 0] = 1 := by norm_num [simScore, ssq, dotQ]
  have tthr : simOfCos (4 / 5) = 16 / 25 := by norm_num [simOfCos]
  have c1 : ((1 : ℚ) ≤ 1) = True := by norm_num
  have c2 : ((16 : ℚ) / 25 ≤ 1) = True := by norm_num
  have h1 : [clauseD1, clauseD2].foldl RegulationGraphBuilder.add_clause_node
      RegulationGraphBuilder.empty
      = ⟨⟨[("c1", ⟨some "clause", some "t1", some "s", some "1", none, none⟩),
           ("c2", ⟨some "clause", some "t2", some "s", some "2", none, none⟩)], []⟩,
         [("c1", [1, 0]), ("c2", [2, 0])]⟩ := by
    simp [clauseD1, clauseD2, RegulationGraphBuilder.add_clause_node,
      DiGraph.add_node_full, setA, RegulationGraphBuilder.empty, DiGraph.empty]
  have h3 : gatherPairs
      (⟨⟨[("c1", ⟨some "clause", some "t1", some "s", some "1", none, none⟩),
          ("c2", ⟨some "clause", some "t2", some "s", some "2", none, none⟩)], []⟩,
        [("c1", [1, 0]), ("c2", [2, 0])]⟩ : RegulationGraphBuilder)
      [clauseD1, clauseD2] = [("c1", [1, 0]), ("c2", [2, 0])] := by
    simp [gatherPairs, clauseD1, clauseD2, lookupA]
  have h4 : simTriplets ["c1", "c2"] [[1, 0], [2, 0]] (4 / 5) (1 / 10) 2
      = [⟨"c1", "SIMILAR_TO", "c1", 1 / 10, none⟩,
         ⟨"c2", "SIMILAR_TO", "c1", 1 / 10, none⟩] := by
    simp [simTriplets, argsortAsc, s11, s12, s21, s22, tthr, c1, c2,
      List.insertionSort, List.orderedInsert, List.range_succ,
      List.getD_cons_zero, List.getD_cons_succ, List.flatMap_cons,
      List.filterMap_cons, List.take_succ_cons, List.drop_succ_cons]
  constructor
  · show lookupA ("c1", "c1")
      (exSelfLoopBase.add_semantic_similarity_edges [clauseD1, clauseD2]
        (4 / 5) 2 (1 / 10)).graph.edges = some ⟨"SIMILAR_TO", 1 / 10, none⟩
    have hbase : exSelfLoopBase
        = ⟨⟨[("c1", ⟨some "clause", some "t1", some "s", some "1", none, none⟩),
             ("c2", ⟨some "clause", some "t2", some "s", some "2", none, none⟩)], []⟩,
           [("c1", [1, 0]), ("c2", [2, 0])]⟩ := h1
    rw [hbase]
    simp only [RegulationGraphBuilder.add_semantic_similarity_edges]
    rw [h3]
    have hlen : ¬ ([("c1", ([1, 0] : List ℚ)), ("c2", [2, 0])].length < 2) := by
      norm_num
    rw [if_neg hlen]
    simp only [List.map_cons, List.map_nil]
    rw [h4]
    simp [RegulationGraphBuilder.add_triplet, DiGraph.add_edge,
      DiGraph.ensureNode, DiGraph.hasNode, lookupA, setA]
  · decide

/-- C8 (counterexample): called with the source-code default parameters,
add_semantic_similarity_edges adds a SIMILAR_TO edge for a pair whose
cosine similarity (55/73 ≈ 0.753) is below the claimed default threshold
0.80 — because the actual defaults are threshold 0.75 and cap 5, and
0.75 ≤ 55/73 < 0.80. -/
theorem similarity_default_below_claimed_threshold :
    lookupA ("A", "B") exDefaultCall.graph.edges
        = some ⟨"SIMILAR_TO", 1 / 10, none⟩
      ∧ simScore [1, 0] [55, 48] < simOfCos (4 / 5)
      ∧ simOfCos defaultSimilarityThreshold ≤ simScore [1, 0] [55, 48]
      ∧ defaultMaxEdgesPerNode ≠ 2 := by
  have s11 : simScore [1, 0] [1, 0] = 1 := by norm_num [simScore, ssq, dotQ]
  have s12 : simScore [1, 0] [55, 48] = 3025 / 5329 := by
    norm_num [simScore, ssq, dotQ]
  have s21 : simScore [55, 48] [1, 0] = 3025 / 5329 := by
    norm_num [simScore, ssq, dotQ]
  have s22 : simScore [55, 48] [55, 48] = 1 := by norm_num [simScore, ssq, dotQ]
  have tthr : simOfCos defaultSimilarityThreshold = 9 / 16 := by
    norm_num [simOfCos, defaultSimilarityThreshold]
  have c1 : ((1 : ℚ) ≤ 3025 / 5329) = False := by norm_num
  have c2 : ((3025 : ℚ) / 5329 ≤ 1) = True := by norm_num
  have c3 : ((9 : ℚ) / 16 ≤ 3025 / 5329) = True := by norm_num
  have c4 : ((9 : ℚ) / 16 ≤ 1) = True := by norm_num
  have h1 : [clauseA, clauseB8].foldl RegulationGraphBuilder.add_clause_node
      RegulationGraphBuilder.empty
      = ⟨⟨[("A", ⟨some "clause", some "ta", some "s1", some "1", none, none⟩),
           ("B", ⟨some "clause", some "tb", some "s2", some "2", none, none⟩)], []⟩,
         [("A", [1, 0]), ("B", [55, 48])]⟩ := by
    simp [clauseA, clauseB8, RegulationGraphBuilder.add_clause_node,
      DiGraph.add_node_full, setA, RegulationGraphBuilder.empty, DiGraph.empty]
  have h3 : gatherPairs
      (⟨⟨[("A", ⟨some "clause", some "ta", some "s1", some "1", none, none⟩),
          ("B", ⟨some "clause", some "tb", some "s2", some "2", none, none⟩)], []⟩,
        [("A", [1, 0]), ("B", [55, 48])]⟩ : RegulationGraphBuilder)
      [clauseA, clauseB8] = [("A", [1, 0]), ("B", [55, 48])] := by
    simp [gatherPairs, clauseA, clauseB8, lookupA]
  have h4 : simTriplets ["A", "B"] [[1, 0], [55, 48]]
      defaultSimilarityThreshold defaultEdgeWeight defaultMaxEdgesPerNode
      = [⟨"A", "SIMILAR_TO", "B", 1 / 10, none⟩,
         ⟨"B", "SIMILAR_TO", "A", 1 / 10, none⟩] := by
    simp [simTriplets, argsortAsc, s11, s12, s21, s22, tthr, c1, c2, c3, c4,
      defaultEdgeWeight, defaultMaxEdgesPerNode,
      List.insertionSort, List.orderedInsert, List.range_succ,
      List.getD_cons_zero, List.getD_cons_succ, List.flatMap_cons,
      List.filterMap_cons, List.take_succ_cons, List.drop_succ_cons]
  refine ⟨?_, ?_, ?_, ?_⟩
  · show lookupA ("A", "B")
      (exDefaultBase.add_semantic_similarity_edges [clauseA, clauseB8]
        defaultSimilarityThreshold defaultMaxEdgesPerNode
        defaultEdgeWeight).graph.edges = some ⟨"SIMILAR_TO", 1 / 10, none⟩
    have hbase : exDefaultBase
        = ⟨⟨[("A", ⟨some "clause", some "ta", some "s1", some "1", none, none⟩),
             ("B", ⟨some "clause", some "tb", some "s2", some "2", none, none⟩)], []⟩,
           [("A", [1, 0]), ("B", [55, 48])]⟩ := h1
    rw [hbase]
    simp only [RegulationGraphBuilder.add_semantic_similarity_edges]
    rw [h3]
    have hlen : ¬ ([("A", ([1, 0] : List ℚ)), ("B", [55, 48])].length < 2) := by
      norm_num
    rw [if_neg hlen]
    simp only [List.map_cons, List.map_nil]
    rw [h4]
    simp [RegulationGraphBuilder.add_triplet, DiGraph.add_edge,
      DiGraph.ensureNode, DiGraph.hasNode, lookupA, setA]
  · norm_num [simScore, simOfCos, ssq, dotQ]
  · norm_num [simScore, simOfCos, ssq, dotQ, defaultSimilarityThreshold]
  · norm_num [defaultMaxEdgesPerNode]

/-- Folding add_node_full over fresh, key-distinct node records appends
them in order. -/
theorem foldl_add_node_full (ns : List (String × NodeAttrs))
    (pre : List (String × NodeAttrs)) (es : List ((String × String) × EdgeAttrs))
    (hdisj : ∀ p ∈ ns, lookupA p.1 pre = none)
    (hnd : (ns.map Prod.fst).Nodup) :
    ns.foldl (fun g p => DiGraph.add_node_full g p.1 p.2) ⟨pre, es⟩
      = ⟨pre ++ ns, es⟩ := by
  induction ns generalizing pre with
  | nil => simp
  | cons p rest ih =>
    obtain ⟨n, a⟩ := p
    simp only [List.map_cons] at hnd
    obtain ⟨hn1, hn2⟩ := List.nodup_cons.mp hnd
    have hpre : lookupA n pre = none := hdisj (n, a) (by simp)
    have hstep : DiGraph.add_node_full ⟨pre, es⟩ n a = ⟨pre ++ [(n, a)], es⟩ := by
      simp [DiGraph.add_node_full, setA_append_of_none n a pre hpre]
    simp only [List.foldl_cons]
    rw [hstep, ih (pre ++ [(n, a)])]
    · simp
    · intro q hq
      rw [lookupA_append_left_none _ _ _ (hdisj q (by simp [hq]))]
      have hqn : ¬ (n = q.1) := by
        intro hEq
        exact hn1 (by simpa [← hEq] using List.mem_map_of_mem Prod.fst hq)
      simp [lookupA, hqn]
    · exact hn2

/-- Folding add_edge over fresh, pair-distinct edge records whose endpoints
all exist appends them in order and leaves the node list unchanged. -/
theorem foldl_add_edge (es : List ((String × String) × EdgeAttrs))
    (acc : List ((String × String) × EdgeAttrs)) (ns : List (String × NodeAttrs))
    (hdisj : ∀ e ∈ es, lookupA e.1 acc = none)
    (hnd : (es.map Prod.fst).Nodup)
    (hends : ∀ e ∈ es, (lookupA e.1.1 ns).isSome ∧ (lookupA e.1.2 ns).isSome) :
    es.foldl (fun g e => DiGraph.add_edge g e.1.1 e.1.2 e.2) ⟨ns, acc⟩
      = ⟨ns, acc ++ es⟩ := by
  induction es generalizing acc with
  | nil => simp
  | cons e rest ih =>
    obtain ⟨⟨u, v⟩, a⟩ := e
    simp only [List.map_cons] at hnd
    obtain ⟨he1, he2⟩ := List.nodup_cons.mp hnd
    have hu : (⟨ns, acc⟩ : DiGraph).hasNode u = true := by
      simpa [DiGraph.hasNode] using (hends ((u, v), a) (by simp)).1
    have hv : (⟨ns, acc⟩ : DiGraph).hasNode v = true := by
      simpa [DiGraph.hasNode] using (hends ((u, v), a) (by simp)).2
    have hstep : DiGraph.add_edge ⟨ns, acc⟩ u v a = ⟨ns, acc ++ [((u, v), a)]⟩ := by
      simp only [DiGraph.add_edge, DiGraph.ensureNode, hu, hv, if_true]
      simp [setA_append_of_none _ _ _ (hdisj ((u, v), a) (by simp))]
    simp only [List.foldl_cons]
    rw [hstep, ih (acc ++ [((u, v), a)])]
    · simp
    · intro q hq
      rw [lookupA_append_left_none _ _ _ (hdisj q (by simp [hq]))]
      have hqn : ¬ ((u, v) = q.1) := by
        intro hEq
        exact he1 (by simpa [← hEq] using List.mem_map_of_mem Prod.fst hq)
      simp [lookupA, hqn]
    · exact he2
    · intro q hq
      exact hends q (by simp [hq])

/-- Folding the node_link_graph edge step over fresh, pair-distinct link
records whose endpoints all exist appends the rebuilt edge records (with
source attribute none) in order and leaves the node list unchanged. -/
theorem foldl_add_link (ls : List LinkRec)
    (acc : List ((String × String) × EdgeAttrs)) (ns : List (String × NodeAttrs))
    (hdisj : ∀ l ∈ ls, lookupA (l.source, l.target) acc = none)
    (hnd : (ls.map (fun l => (l.source, l.target))).Nodup)
    (hends : ∀ l ∈ ls,
      (lookupA l.source ns).isSome ∧ (lookupA l.target ns).isSome) :
    ls.foldl
        (fun g e =>
          DiGraph.add_edge g e.source e.target ⟨e.relation, e.confidence, none⟩)
        ⟨ns, acc⟩
      = ⟨ns, acc ++ ls.map
          (fun l => ((l.source, l.target),
            (⟨l.relation, l.confidence, none⟩ : EdgeAttrs)))⟩ := by
  induction ls generalizing acc with
  | nil => simp
  | cons l rest ih =>
    simp only [List.map_cons] at hnd
    obtain ⟨he1, he2⟩ := List.nodup_cons.mp hnd
    have hu : (⟨ns, acc⟩ : DiGraph).hasNode l.source = true := by
      simpa [DiGraph.hasNode] using (hends l (by simp)).1
    have hv : (⟨ns, acc⟩ : DiGraph).hasNode l.target = true := by
      simpa [DiGraph.hasNode] using (hends l (by simp)).2
    have hstep : DiGraph.add_edge ⟨ns, acc⟩ l.source l.target
        ⟨l.relation, l.confidence, none⟩
        = ⟨ns, acc ++ [((l.source, l.target), ⟨l.relation, l.confidence, none⟩)]⟩ := by
      simp only [DiGraph.add_edge, DiGraph.ensureNode, hu, hv, if_true]
      simp [setA_append_of_none _ _ _ (hdisj l (by simp))]
    simp only [List.foldl_cons]
    rw [hstep, ih (acc ++
      [((l.source, l.target), (⟨l.relation, l.confidence, none⟩ : EdgeAttrs))])]
    · simp
    · intro q hq
      rw [lookupA_append_left_none _ _ _ (hdisj q (by simp [hq]))]
      have hqn : ¬ ((l.source, l.target) = (q.source, q.target)) := by
        intro hEq
        exact he1 (by
          simpa [← hEq] using
            List.mem_map_of_mem (fun l2 => (l2.source, l2.target)) hq)
      simp [lookupA, hqn]
    · exact he2
    · intro q hq
      exact hends q (by simp [hq])

/-- nx.node_link_graph applied to nx.node_link_data of a well-formed graph
rebuilds the same node list and the same edge records per ordered pair
with the same relation and confidence; each rebuilt edge's source
attribute is none, because the serializer overwrote it with the source
node id and the loader strips the endpoint keys. -/
theorem node_link_graph_roundtrip (g : DiGraph) (h : g.WF) :
    node_link_graph
        ⟨g.nodes,
         g.edges.map (fun e => ⟨e.1.1, e.1.2, e.2.relation, e.2.confidence⟩)⟩
      = ⟨g.nodes,
         g.edges.map (fun e => (e.1, ⟨e.2.relation, e.2.confidence, none⟩))⟩ := by
  obtain ⟨hn, he, hends⟩ := h
  simp only [node_link_graph, DiGraph.empty]
  rw [foldl_add_node_full g.nodes [] [] (by simp [lookupA]) hn]
  rw [show ([] ++ g.nodes : List (String × NodeAttrs)) = g.nodes from rfl]
  rw [foldl_add_link
      (g.edges.map (fun e => ⟨e.1.1, e.1.2, e.2.relation, e.2.confidence⟩))
      [] g.nodes (by simp [lookupA])
      (by
        have hcomp :
            ((g.edges.map
                (fun e => (⟨e.1.1, e.1.2, e.2.relation, e.2.confidence⟩ : LinkRec))).map
              (fun l => (l.source, l.target)))
              = g.edges.map Prod.fst := by
          simp [List.map_map, Function.comp]
        rw [hcomp]
        exact he)
      (by
        intro q hq
        obtain ⟨e, hemem, rfl⟩ := List.mem_map.mp hq
        have hb := hends e hemem
        exact ⟨by simpa [DiGraph.hasNode] using hb.1,
               by simpa [DiGraph.hasNode] using hb.2⟩)]
  simp [List.map_map, Function.comp]

/-- C2: load(save(G)) reconstructs a structurally equivalent builder for
every well-formed (builder-produced) graph and any prior state of the
loading builder: the same node list with the same per-node attributes, the
same edge set per ordered pair with the same relation and weight per edge,
and the same node-id → embedding map.  The first conjunct pins the rebuilt
edge list exactly: only the edge source tag is lost, clobbered in the link
document by the source node id and stripped on load. -/
theorem load_save_roundtrip (b b' : RegulationGraphBuilder) (h : b.graph.WF) :
    (b'.load b.save true).graph.edges
        = b.graph.edges.map (fun e => (e.1, ⟨e.2.relation, e.2.confidence, none⟩))
      ∧ (b'.load b.save true).graph.nodes = b.graph.nodes
      ∧ (b'.load b.save true).graph.edges.map
            (fun e => (e.1, e.2.relation, e.2.confidence))
          = b.graph.edges.map (fun e => (e.1, e.2.relation, e.2.confidence))
      ∧ (b'.load b.save true).node_embeddings = b.node_embeddings := by
  have hgraph : (b'.load b.save true).graph
      = ⟨b.graph.nodes,
         b.graph.edges.map (fun e => (e.1, ⟨e.2.relation, e.2.confidence, none⟩))⟩ := by
    simp only [RegulationGraphBuilder.load, RegulationGraphBuilder.save]
    exact node_link_graph_roundtrip b.graph h
  refine ⟨by rw [hgraph], by rw [hgraph], ?_,
    by simp [RegulationGraphBuilder.load, RegulationGraphBuilder.save]⟩
  rw [hgraph]
  simp [List.map_map, Function.comp]

/-- C2 (witness): a clause node plus two asserted edges (with an
auto-created unknown endpoint and a source tag) round-trips into a fresh
builder holding stale embeddings. -/
theorem load_save_roundtrip_witness :
    exSaveBuilder.graph.WF
      ∧ (exStaleBuilder.load exSaveBuilder.save true).graph.nodes
          = exSaveBuilder.graph.nodes
      ∧ (exStaleBuilder.load exSaveBuilder.save true).graph.edges.map
            (fun e => (e.1, e.2.relation, e.2.confidence))
          = exSaveBuilder.graph.edges.map
            (fun e => (e.1, e.2.relation, e.2.confidence))
      ∧ (exStaleBuilder.load exSaveBuilder.save true).node_embeddings
          = exSaveBuilder.node_embeddings :=
  ⟨by decide,
   (load_save_roundtrip exSaveBuilder exStaleBuilder (by decide)).2.1,
   (load_save_roundtrip exSaveBuilder exStaleBuilder (by decide)).2.2.1,
   (load_save_roundtrip exSaveBuilder exStaleBuilder (by decide)).2.2.2⟩

theorem length_filterMap_isSome {α β : Type} (f : α → Option β) (l : List α) :
    (l.filterMap f).length = (l.filter (fun a => (f a).isSome)).length := by
  induction l with
  | nil => rfl
  | cons x t ih =>
    cases hfx : f x <;>
      simp [List.filterMap_cons, hfx, List.filter_cons, ih]

/-- What a successful emission of the retrieve_with_hipporag step-4 body
tells us: the record copies the node id and score, and the node passes the
clause filter. -/
theorem retrieveRank_body_some (b : RegulationGraphBuilder) (nv : String × ℚ)
    (r : RetrievalResult)
    (h : (match b.graph.get_node_data nv.1 with
          | some a =>
              if a.type = some "clause" then
                some (⟨nv.1, a.text.getD "", nv.2, a.sectionLabel.getD "",
                  a.severity⟩ : RetrievalResult)
              else none
          | none => none) = some r) :
    r.ppr_score = nv.2 ∧ r.clause_id = nv.1 ∧ isClauseNode b nv.1 = true := by
  cases hg : b.graph.get_node_data nv.1 with
  | none => simp [hg] at h
  | some a =>
    simp only [hg] at h
    by_cases ht : a.type = some "clause"
    · rw [if_pos ht] at h
      cases h
      exact ⟨rfl, rfl, by simp [isClauseNode, hg, ht]⟩
    · rw [if_neg ht] at h
      cases h

/-- The step-4 body succeeds exactly on clause nodes. -/
theorem retrieveRank_body_isSome (b : RegulationGraphBuilder) (nv : String × ℚ) :
    ((match b.graph.get_node_data nv.1 with
      | some a =>
          if a.type = some "clause" then
            some (⟨nv.1, a.text.getD "", nv.2, a.sectionLabel.getD "",
              a.severity⟩ : RetrievalResult)
          else none
      | none => none).isSome) = isClauseNode b nv.1 := by
  unfold isClauseNode
  cases hg : b.graph.get_node_data nv.1 with
  | none => simp
  | some a =>
    by_cases ht : a.type = some "clause" <;> simp [ht]

theorem retrieveRank_length_le (b : RegulationGraphBuilder)
    (scores : List (String × ℚ)) (k : ℕ) :
    (retrieveRank b scores k).length ≤ k := by
  unfold retrieveRank
  rw [length_filterMap_isSome]
  exact le_trans (List.length_filter_le _ _) (List.length_take_le _ _)

theorem retrieveRank_length_eq_clause_count (b : RegulationGraphBuilder)
    (scores : List (String × ℚ)) (k : ℕ) :
    (retrieveRank b scores k).length
      = (((rankNodes scores).take k).filter
          (fun nv => isClauseNode b nv.1)).length := by
  unfold retrieveRank
  rw [length_filterMap_isSome]
  congr 1
  apply List.filter_congr
  intro nv _
  exact retrieveRank_body_isSome b nv

theorem retrieveRank_mem_clause (b : RegulationGraphBuilder)
    (scores : List (String × ℚ)) (k : ℕ) (r : RetrievalResult)
    (h : r ∈ retrieveRank b scores k) :
    isClauseNode b r.clause_id = true := by
  unfold retrieveRank at h
  obtain ⟨nv, _, hf⟩ := List.mem_filterMap.mp h
  obtain ⟨_, hid, hcl⟩ := retrieveRank_body_some b nv r hf
  rw [hid]
  exact hcl

theorem retrieveRank_pairwise_desc (b : RegulationGraphBuilder)
    (scores : List (String × ℚ)) (k : ℕ) :
    List.Pairwise (fun r1 r2 : RetrievalResult => r2.ppr_score ≤ r1.ppr_score)
      (retrieveRank b scores k) := by
  have hsorted : List.Pairwise (fun x y : String × ℚ => y.2 ≤ x.2)
      (rankNodes scores) := by
    haveI : IsTotal (String × ℚ) (fun x y : String × ℚ => y.2 ≤ x.2) :=
      ⟨fun a b2 => le_total b2.2 a.2⟩
    haveI : IsTrans (String × ℚ) (fun x y : String × ℚ => y.2 ≤ x.2) :=
      ⟨fun _ _ _ hab hbc => le_trans hbc hab⟩
    exact List.sorted_insertionSort _ scores
  have htake := hsorted.sublist (List.take_sublist k _)
  unfold retrieveRank
  rw [List.pairwise_filterMap]
  refine htake.imp ?_
  intro nv nv2 hle r hr r2 hr2
  obtain ⟨hs1, _, _⟩ := retrieveRank_body_some b nv r hr
  obtain ⟨hs2, _, _⟩ := retrieveRank_body_some b nv2 r2 hr2
  rw [hs1, hs2]
  exact hle

/-- C3 (counterexample): with top_k = 2 and a score map in which an
unknown-type placeholder node outranks both clause nodes, the assembler
returns only 1 result even though the graph contains 2 clause nodes — the
source slices ranked_nodes[:top_k] before filtering by type, instead of
walking the list until top_k clause nodes are collected. -/
theorem rank_slice_misses_clause_nodes :
    (retrieveRank exRankBuilder exRankScores 2).length = 1
      ∧ (exRankBuilder.graph.nodes.filter
          (fun p => p.2.type = some "clause")).length = 2 := by
  constructor
  · have c1 : (((8 : ℚ)⁻¹ : ℚ) ≤ 3 / 4) = True := by norm_num
    have c2 : ((3 : ℚ) / 4 ≤ (8 : ℚ)⁻¹) = False := by norm_num
    have c3 : (((8 : ℚ)⁻¹ : ℚ) ≤ (8 : ℚ)⁻¹) = True := by norm_num
    simp [retrieveRank, rankNodes, exRankScores, exRankBuilder,
      List.insertionSort, List.orderedInsert, c1, c2, c3,
      DiGraph.get_node_data, lookupA, unknownAttrs, clauseAttrs1, clauseAttrs2,
      List.take_succ_cons, List.filterMap_cons]
  · decide

/-- C3 (amended): the assembler slices the score-sorted list to the top_k
highest-ranked nodes first and only then filters to clause-type nodes: it
returns exactly the clause-type entries of that slice (so never more than
top_k, and never padding or erroring), but it can return fewer than top_k
clause nodes even when the graph holds at least top_k of them. -/
theorem retrieveRank_filters_top_slice (b : RegulationGraphBuilder)
    (scores : List (String × ℚ)) (k : ℕ) :
    (retrieveRank b scores k).length ≤ k
      ∧ (retrieveRank b scores k).length
          = (((rankNodes scores).take k).filter
              (fun nv => isClauseNode b nv.1)).length
      ∧ ∀ r ∈ retrieveRank b scores k, isClauseNode b r.clause_id = true :=
  ⟨retrieveRank_length_le b scores k,
   retrieveRank_length_eq_clause_count b scores k,
   fun r hr => retrieveRank_mem_clause b scores k r hr⟩

/-- C3 (witness for the amended theorem): instantiated on the concrete
ranking example; the returned node c1 passes the clause filter. -/
theorem retrieveRank_filters_top_slice_witness :
    isClauseNode exRankBuilder "c1" = true := by
  have c1 : (((8 : ℚ)⁻¹ : ℚ) ≤ 3 / 4) = True := by norm_num
  have c2 : ((3 : ℚ) / 4 ≤ (8 : ℚ)⁻¹) = False := by norm_num
  have c3 : (((8 : ℚ)⁻¹ : ℚ) ≤ (8 : ℚ)⁻¹) = True := by norm_num
  have heval : retrieveRank exRankBuilder exRankScores 2
      = [⟨"c1", "t1", 1 / 8, "s", none⟩] := by
    simp [retrieveRank, rankNodes, exRankScores, exRankBuilder,
      List.insertionSort, List.orderedInsert, c1, c2, c3,
      DiGraph.get_node_data, lookupA, unknownAttrs, clauseAttrs1, clauseAttrs2,
      List.take_succ_cons, List.filterMap_cons]
  have h := (retrieveRank_filters_top_slice exRankBuilder exRankScores 2).2.2
    ⟨"c1", "t1", 1 / 8, "s", none⟩
    (by rw [heval]; exact List.mem_singleton.mpr rfl)
  exact h

/-- C4 (counterexample): two clause nodes with exactly tied scores, listed
in the score map with the larger id first, are returned in score-map order
["b", "a"], not in ascending id order — the source sorts only by score
(stable), with no id tie-break. -/
theorem rank_ties_not_id_ascending :
    (retrieveRank exTieBuilder exTieScores 2).map (fun r => r.clause_id)
        = ["b", "a"]
      ∧ ("a" : String) < "b"
      ∧ exTieScores = [("b", 1), ("a", 1)] := by
  refine ⟨?_, by rw [String.lt_iff_toList_lt]; decide, rfl⟩
  have c1 : ((1 : ℚ) ≤ 1) = True := by norm_num
  simp [retrieveRank, rankNodes, exTieScores, exTieBuilder,
    List.insertionSort, List.orderedInsert, c1, DiGraph.get_node_data,
    lookupA, clauseAttrsA, clauseAttrsB, List.take_succ_cons,
    List.filterMap_cons]

/-- C4 (amended): the assembler returns at most top_k entries, every entry
is a clause-type node, and entries are sorted by score descending; no id
tie-break is applied to equal scores (they stay in score-map order). -/
theorem retrieveRank_bounded_clause_sorted (b : RegulationGraphBuilder)
    (scores : List (String × ℚ)) (k : ℕ) :
    (retrieveRank b scores k).length ≤ k
      ∧ (∀ r ∈ retrieveRank b scores k, isClauseNode b r.clause_id = true)
      ∧ List.Pairwise
          (fun r1 r2 : RetrievalResult => r2.ppr_score ≤ r1.ppr_score)
          (retrieveRank b scores k) :=
  ⟨retrieveRank_length_le b scores k,
   fun r hr => retrieveRank_mem_clause b scores k r hr,
   retrieveRank_pairwise_desc b scores k⟩

/-- C4 (witness for the amended theorem): instantiated on the tied-score
example. -/
theorem retrieveRank_bounded_clause_sorted_witness :
    isClauseNode exTieBuilder "b" = true := by
  have c1 : ((1 : ℚ) ≤ 1) = True := by norm_num
  have heval : retrieveRank exTieBuilder exTieScores 2
      = [⟨"b", "tb", 1, "s", none⟩, ⟨"a", "ta", 1, "s", none⟩] := by
    simp [retrieveRank, rankNodes, exTieScores, exTieBuilder,
      List.insertionSort, List.orderedInsert, c1, DiGraph.get_node_data,
      lookupA, clauseAttrsA, clauseAttrsB, List.take_succ_cons,
      List.filterMap_cons]
  have h := (retrieveRank_bounded_clause_sorted exTieBuilder exTieScores 2).2.1
    ⟨"b", "tb", 1, "s", none⟩ (by rw [heval]; simp)
  exact h

/-- Any edge present after folding add_triplet over a triplet list either
was already present with the same attributes, or is the record of one of
the folded triplets. -/
theorem foldl_add_triplet_lookup (ts : List RegulationTriplet)
    (b : RegulationGraphBuilder) (pr : String × String) (a : EdgeAttrs)
    (h : lookupA pr
        (ts.foldl RegulationGraphBuilder.add_triplet b).graph.edges = some a) :
    lookupA pr b.graph.edges = some a
      ∨ ∃ t ∈ ts, pr = (t.subject, t.object)
          ∧ a = ⟨t.predicate, t.confidence, t.source⟩ := by
  induction ts generalizing b with
  | nil => exact Or.inl h
  | cons t0 rest ih =>
    simp only [List.foldl_cons] at h
    rcases ih _ h with hbase | ⟨t, htmem, hpr, ha⟩
    · rw [add_triplet_edges, lookupA_setA] at hbase
      by_cases hpr0 : (t0.subject, t0.object) = pr
      · rw [if_pos hpr0] at hbase
        exact Or.inr ⟨t0, by simp, hpr0.symm, (Option.some_inj.mp hbase).symm⟩
      · rw [if_neg hpr0] at hbase
        exact Or.inl hbase
    · exact Or.inr ⟨t, by simp [htmem], hpr, ha⟩

/-- Every triplet emitted by the similarity loop is a SIMILAR_TO edge with
the caller's edge weight connecting two gathered clause ids whose encoded
cosine similarity passes the threshold gate. -/
theorem simTriplets_mem (clause_ids : List String) (embs : List (List ℚ))
    (th w : ℚ) (mx : ℕ) (t : RegulationTriplet)
    (h : t ∈ simTriplets clause_ids embs th w mx) :
    t.predicate = "SIMILAR_TO" ∧ t.confidence = w ∧ t.source = none
      ∧ ∃ i j, i < clause_ids.length ∧ j < embs.length
          ∧ t.subject = clause_ids.getD i ""
          ∧ t.object = clause_ids.getD j ""
          ∧ simOfCos th ≤ simScore (embs.getD i []) (embs.getD j []) := by
  unfold simTriplets at h
  obtain ⟨i, hi, hinner⟩ := List.mem_flatMap.mp h
  obtain ⟨j, hj, hsome⟩ := List.mem_filterMap.mp hinner
  have hiN : i < clause_ids.length := List.mem_range.mp hi
  have hjN : j < embs.length := by
    have hj1 : j ∈ argsortAsc
        (embs.map (fun e => simScore (embs.getD i []) e)) := by
      have := List.mem_of_mem_drop (List.mem_of_mem_take hj)
      exact List.mem_reverse.mp this
    have hj2 : j ∈ List.range
        (embs.map (fun e => simScore (embs.getD i []) e)).length :=
      ((List.perm_insertionSort _ _).mem_iff).mp hj1
    simpa using List.mem_range.mp hj2
  have hsims : (embs.map (fun e => simScore (embs.getD i []) e)).getD j 0
      = simScore (embs.getD i []) (embs.getD j []) := by
    simp [List.getD_eq_getElem?_getD, List.getElem?_map,
      List.getElem?_eq_getElem hjN]
  rw [hsims] at hsome
  by_cases hgate :
      simOfCos th ≤ simScore (embs.getD i []) (embs.getD j [])
  · rw [if_pos hgate] at hsome
    cases hsome
    exact ⟨rfl, rfl, rfl, i, j, hiN, hjN, rfl, rfl, hgate⟩
  · rw [if_neg hgate] at hsome
    cases hsome

/-- Bounding the subject-filtered length of a flatMap when at most one
block can carry the subject. -/
theorem length_filter_flatMap_le {α : Type} (L : List ℕ) (blk : ℕ → List α)
    (p : α → Bool) (mx : ℕ) (key : ℕ → String) (s : String)
    (hlen : ∀ i ∈ L, (blk i).length ≤ mx)
    (hsubj : ∀ i ∈ L, ∀ t ∈ blk i, p t = true → key i = s)
    (huniq : ∀ i1 ∈ L, ∀ i2 ∈ L, key i1 = s → key i2 = s → i1 = i2)
    (hnd : L.Nodup) :
    ((L.flatMap blk).filter p).length ≤ mx := by
  induction L with
  | nil => simp
  | cons i rest ih =>
    simp only [List.flatMap_cons, List.filter_append, List.length_append]
    obtain ⟨hni, hndr⟩ := List.nodup_cons.mp hnd
    by_cases hk : key i = s
    · have hrest : (rest.flatMap blk).filter p = [] := by
        apply List.filter_eq_nil_iff.mpr
        intro t ht hpt
        obtain ⟨i2, hi2, hti⟩ := List.mem_flatMap.mp ht
        have hk2 : key i2 = s := hsubj i2 (by simp [hi2]) t hti hpt
        have hEq : i = i2 := huniq i (by simp) i2 (by simp [hi2]) hk hk2
        exact hni (hEq ▸ hi2)
      rw [hrest]
      simp only [List.length_nil, Nat.add_zero]
      exact le_trans (List.length_filter_le _ _) (hlen i (by simp))
    · have hblk : (blk i).filter p = [] := by
        apply List.filter_eq_nil_iff.mpr
        intro t ht hpt
        exact hk (hsubj i (by simp) t ht hpt)
      rw [hblk]
      simp only [List.length_nil, Nat.zero_add]
      exact ih (fun i2 h2 => hlen i2 (by simp [h2]))
        (fun i2 h2 => hsubj i2 (by simp [h2]))
        (fun i1 h1 i2 h2 => huniq i1 (by simp [h1]) i2 (by simp [h2])) hndr

/-- When clause ids are pairwise distinct, the similarity loop emits at
most max_edges triplets with any given subject node. -/
theorem simTriplets_cap (clause_ids : List String) (embs : List (List ℚ))
    (th w : ℚ) (mx : ℕ) (hnd : clause_ids.Nodup) (s : String) :
    ((simTriplets clause_ids embs th w mx).filter
        (fun t => t.subject = s)).length ≤ mx := by
  unfold simTriplets
  apply length_filter_flatMap_le (List.range clause_ids.length) _ _ mx
    (fun i => clause_ids.getD i "") s
  · intro i _
    exact le_trans (List.length_filterMap_le _ _) (List.length_take_le _ _)
  · intro i _ t ht hpt
    obtain ⟨j, _, hsome⟩ := List.mem_filterMap.mp ht
    have hsubj : t.subject = clause_ids.getD i "" := by
      by_cases hgate : simOfCos th ≤
          (embs.map (fun e => simScore (embs.getD i []) e)).getD j 0
      · rw [if_pos hgate] at hsome
        cases hsome
        rfl
      · rw [if_neg hgate] at hsome
        cases hsome
    rw [← hsubj]
    exact of_decide_eq_true hpt
  · intro i1 h1 i2 h2 hk1 hk2
    have hi1 : i1 < clause_ids.length := List.mem_range.mp h1
    have hi2 : i2 < clause_ids.length := List.mem_range.mp h2
    have hg1 : clause_ids.getD i1 "" = clause_ids[i1] := by
      rw [List.getD_eq_getElem?_getD, List.getElem?_eq_getElem hi1]
      rfl
    have hg2 : clause_ids.getD i2 "" = clause_ids[i2] := by
      rw [List.getD_eq_getElem?_getD, List.getElem?_eq_getElem hi2]
      rfl
    have : clause_ids[i1] = clause_ids[i2] := by
      rw [← hg1, ← hg2, hk1, hk2]
    exact (hnd.getElem_inj_iff).mp this
  · exact List.nodup_range _

/-- C8 (amended): the defaults of add_semantic_similarity_edges in the
source are threshold 0.75 and cap 5 (the knowledge-graph build site passes
0.80 and 2 explicitly); for every call, any edge of the resulting graph
either already existed with the same attributes or is a SIMILAR_TO edge
with the caller's edge weight between two embedded clauses whose cosine
similarity is at or above the threshold (stated in the signed-square
encoding); and for distinct clause ids the loop adds at most
max_edges_per_node similarity triplets with any given source node. -/
theorem similarity_gate_cap_and_defaults :
    (defaultSimilarityThreshold = 3 / 4 ∧ defaultMaxEdgesPerNode = 5
        ∧ defaultEdgeWeight = 1 / 10)
      ∧ (∀ (b : RegulationGraphBuilder) (clauses : List RegulationClause)
            (th : ℚ) (mx : ℕ) (w : ℚ) (pr : String × String) (a : EdgeAttrs),
          lookupA pr
              (b.add_semantic_similarity_edges clauses th mx w).graph.edges
            = some a →
          lookupA pr b.graph.edges = some a
            ∨ (a.relation = "SIMILAR_TO" ∧ a.confidence = w
                ∧ ∃ i j, i < (gatherPairs b clauses).length
                    ∧ j < (gatherPairs b clauses).length
                    ∧ pr = (((gatherPairs b clauses).map Prod.fst).getD i "",
                            ((gatherPairs b clauses).map Prod.fst).getD j "")
                    ∧ simOfCos th ≤ simScore
                        (((gatherPairs b clauses).map Prod.snd).getD i [])
                        (((gatherPairs b clauses).map Prod.snd).getD j [])))
      ∧ (∀ (clause_ids : List String) (embs : List (List ℚ)) (th w : ℚ)
            (mx : ℕ) (s : String), clause_ids.Nodup →
          ((simTriplets clause_ids embs th w mx).filter
              (fun t => t.subject = s)).length ≤ mx) := by
  refine ⟨⟨rfl, rfl, rfl⟩, ?_, ?_⟩
  · intro b clauses th mx w pr a h
    unfold RegulationGraphBuilder.add_semantic_similarity_edges at h
    by_cases hlen : (gatherPairs b clauses).length < 2
    · rw [if_pos hlen] at h
      exact Or.inl h
    · rw [if_neg hlen] at h
      rcases foldl_add_triplet_lookup _ _ _ _ h with hbase | ⟨t, htmem, hpr, ha⟩
      · exact Or.inl hbase
      · obtain ⟨hrel, hconf, _, i, j, hi, hj, hsub, hobj, hgate⟩ :=
          simTriplets_mem _ _ _ _ _ _ htmem
        refine Or.inr ⟨by rw [ha, hrel], by rw [ha, hconf], i, j, ?_, ?_, ?_, hgate⟩
        · simpa using hi
        · simpa using hj
        · rw [hpr, hsub, hobj]
  · intro clause_ids embs th w mx s hnd
    exact simTriplets_cap clause_ids embs th w mx hnd s

/-- C8 (witness for the amended theorem): the gate branch applied to a
no-embedding call that leaves the builder unchanged, the cap branch on the
concrete two-clause input, and the default constants. -/
theorem similarity_gate_cap_and_defaults_witness :
    (lookupA ("A", "B") exDupOnce.graph.edges = some ⟨"R1", 1, none⟩
        ∨ ((⟨"R1", 1, none⟩ : EdgeAttrs).relation = "SIMILAR_TO"
            ∧ (⟨"R1", 1, none⟩ : EdgeAttrs).confidence = (1 : ℚ) / 10
            ∧ ∃ i j, i < (gatherPairs exDupOnce []).length
                ∧ j < (gatherPairs exDupOnce []).length
                ∧ (("A", "B") : String × String)
                    = (((gatherPairs exDupOnce []).map Prod.fst).getD i "",
                       ((gatherPairs exDupOnce []).map Prod.fst).getD j "")
                ∧ simOfCos (3 / 4) ≤ simScore
                    (((gatherPairs exDupOnce []).map Prod.snd).getD i [])
                    (((gatherPairs exDupOnce []).map Prod.snd).getD j [])))
      ∧ ((simTriplets ["A", "B"] [[1, 0], [4, 3]] (4 / 5) (1 / 10) 2).filter
          (fun t => t.subject = "A")).length ≤ 2
      ∧ defaultSimilarityThreshold = 3 / 4 :=
  ⟨similarity_gate_cap_and_defaults.2.1 exDupOnce [] (3 / 4) 5 (1 / 10)
      ("A", "B") ⟨"R1", 1, none⟩ (by decide),
   similarity_gate_cap_and_defaults.2.2 ["A", "B"] [[1, 0], [4, 3]]
      (4 / 5) (1 / 10) 2 "A" (by decide),
   similarity_gate_cap_and_defaults.1.1⟩

/-- C1 (witness for the amended theorem): applied to the concrete builder
that already holds the R1 edge for (A,B). -/
theorem add_triplet_duplicate_pair_overwrites_witness :
    (exDupOnce.add_triplet tripR2).graph.edges.length
        = exDupOnce.graph.edges.length
      ∧ lookupA (tripR2.subject, tripR2.object)
            (exDupOnce.add_triplet tripR2).graph.edges
          = some ⟨tripR2.predicate, tripR2.confidence, tripR2.source⟩
      ∧ ((⟨"R1", 1, none⟩ : EdgeAttrs).confidence = tripR2.confidence →
          (exDupOnce.add_triplet tripR2).graph.outWeight tripR2.subject
            = exDupOnce.graph.outWeight tripR2.subject) :=
  add_triplet_duplicate_pair_overwrites exDupOnce tripR2 ⟨"R1", 1, none⟩ (by decide)

end Harmoniq
